import Mathlib

set_option autoImplicit false

/-!
A shallow embedding of the sshagentca / sshtokenca SSH certificate
authority server (Go), covering the configuration loader
(`util/settings.go`, both shipped variants), the OIDC verifier
initialisation (`util/keyload.go` second part), and the per-connection
server logic (`server.go`).

Modelling conventions:
  * Go strings are modelled as Lean `String` at character granularity
    (all strings relevant to the claims are ASCII, where byte length and
    character length coincide).
  * `time.Duration` is an `Int` counting nanoseconds.
  * Go maps are association lists; the accept/reject decisions modelled
    here do not depend on iteration order.
  * Fallible Go functions returning `(T, error)` become
    `Except String T`; only the presence of an error matters to the
    claims, so error strings are abbreviated.
  * The external `golang.org/x/crypto/ssh` key-parsing and fingerprint
    routines are parameters (`SshLib`), since they are library code, not
    code of this repository.
-/

/-- An SSH public key, identified by its wire marshalling
(`ssh.PublicKey.Marshal` in Go returns a byte slice; we model the bytes
as a list of naturals). -/
structure PublicKey where
  marshal : List Nat
deriving DecidableEq, Repr

/-- The parts of `golang.org/x/crypto/ssh` used by the settings loader:
`LoadAuthorizedKeysBytes` (built on `ssh.ParseAuthorizedKey`) and
`ssh.FingerprintSHA256`.  These are external library functions, so the
embedding is parameterised over them. -/
structure SshLib where
  parseAuthorizedKeys : String → Except String (List PublicKey)
  fingerprintSHA256 : PublicKey → String

/-- `util.UserPrincipals` from the sshtokenca variant of
`util/settings.go` (the variant imported by `server.go`): a user record
with name, optional authorized key and fingerprint, optional OIDC
subject, principals, and the parsed public keys filled in by
`Settings.validate`. -/
structure UserPrincipals where
  name : String
  authorizedKey : String
  fingerprint : String
  oidcSubject : String
  principals : List String
  publicKeys : List PublicKey := []
deriving DecidableEq, Repr

/-- An OIDC provider handle, as returned by `oidc.NewProvider`
(external library); only its OAuth2 endpoint is relevant here. -/
structure Provider where
  endpoint : String
deriving DecidableEq, Repr

/-- An ID-token verifier as built by `provider.Verifier`, bound to the
configured client id (external library value). -/
structure Verifier where
  clientID : String
deriving DecidableEq, Repr

/-- `oauth2.Config` as constructed by `OpenIDC.Init` in
`util/keyload.go`. -/
structure OAuth2Config where
  clientID : String
  clientSecret : String
  redirectURL : String
  endpoint : String
  scopes : List String
deriving DecidableEq, Repr

/-- `util.OpenIDC` from `util/keyload.go`: the YAML-configured fields
plus the private fields filled in by `Init`. -/
structure OpenIDC where
  issuer : String
  clientID : String
  clientSecret : String
  redirectURL : String
  scopes : List String
  oauth2 : Option OAuth2Config := none
  provider : Option Provider := none
  verifier : Option Verifier := none
deriving DecidableEq, Repr

/-- `util.Settings` from the sshtokenca variant of `util/settings.go`:
validity (a `time.Duration`, in nanoseconds), organisation, banner,
extensions map, user list, optional OIDC section, and the
name-to-user map built by `buildNameMap`. -/
structure Settings where
  validity : Int
  organisation : String
  banner : String
  extensions : List (String × String)
  users : List UserPrincipals
  openIDC : Option OpenIDC := none
  usersByName : List (String × UserPrincipals) := []
deriving DecidableEq, Repr

/-- `true` exactly when a Go call returned a nil error. -/
def isOkB {α : Type} : Except String α → Bool
  | Except.ok _ => true
  | Except.error _ => false

/-- `minvalidity = 1 * time.Minute` in nanoseconds
(`util/settings.go`). -/
def minvalidity : Int := 60 * 1000000000

/-- `maxvalidity = 24 * time.Hour` in nanoseconds
(`util/settings.go`). -/
def maxvalidity : Int := 24 * 60 * 60 * 1000000000

/-- The `permittedExtensions` map from `util/settings.go`: the allowed
certificate extensions, each with the empty string as its only
permitted value. -/
def permittedExtensions : List (String × String) :=
  [("permit-agent-forwarding", ""),
   ("permit-port-forwarding", ""),
   ("permit-pty", ""),
   ("permit-X11-forwarding", ""),
   ("permit-user-rc", "")]

/-- The extensions loop of `Settings.validate`: every configured key
must be present in `permittedExtensions` and carry the expected (empty)
value.  Go iterates the map in arbitrary order; the accept/reject
outcome modelled by the claims is order-independent. -/
def checkExtensions : List (String × String) → Except String Unit
  | [] => Except.ok ()
  | (k, v) :: rest =>
    match permittedExtensions.lookup k with
    | none => Except.error ("extension " ++ k ++ " not permitted")
    | some val =>
      if v ≠ val then
        Except.error ("value for key " ++ k ++ " not permitted")
      else checkExtensions rest

/-- The per-user body of the users loop in the sshtokenca
`Settings.validate` (`util/settings.go`, second variant): checks name,
principals, presence of a credential, parses the authorized key,
requires exactly one key, checks a configured fingerprint against the
computed one, stores the parsed keys, and rejects a fingerprint without
an authorized key. -/
def checkUserV2 (lib : SshLib) (u : UserPrincipals) : Except String UserPrincipals :=
  if u.name = "" then Except.error "user provided with empty name"
  else if u.principals = [] then
    Except.error ("user " ++ u.name ++ " provided with no principals")
  else if u.authorizedKey = "" ∧ u.oidcSubject = "" then
    Except.error ("user " ++ u.name ++ " has no authorized_key or oidc_subject")
  else if u.authorizedKey ≠ "" then
    match lib.parseAuthorizedKeys u.authorizedKey with
    | Except.error e => Except.error e
    | Except.ok keys =>
      if keys.length ≠ 1 then
        Except.error ("user " ++ u.name ++ " unexpected number of keys in authorized_key entry")
      else if u.fingerprint ≠ "" ∧ u.fingerprint ≠ lib.fingerprintSHA256 (keys.headD ⟨[]⟩) then
        Except.error ("user " ++ u.name ++ " mismatched fingerprint and public key")
      else Except.ok { u with publicKeys := keys }
  else if u.fingerprint ≠ "" then
    Except.error ("user " ++ u.name ++ " has fingerprint but no authorized_key")
  else Except.ok u

/-- The users loop of the sshtokenca `Settings.validate`: each record is
checked (and updated) in order, stopping at the first error. -/
def checkUsersV2 (lib : SshLib) : List UserPrincipals → Except String (List UserPrincipals)
  | [] => Except.ok []
  | u :: rest =>
    match checkUserV2 lib u with
    | Except.error e => Except.error e
    | Except.ok u2 =>
      match checkUsersV2 lib rest with
      | Except.error e => Except.error e
      | Except.ok rest2 => Except.ok (u2 :: rest2)

/-- `Settings.validate` from the sshtokenca variant of
`util/settings.go`: validity bounds, extensions allow-list, user
records, and the check that an `oidc_subject` is only used when an OIDC
provider is configured. -/
def settingsValidate (lib : SshLib) (s : Settings) : Except String Settings :=
  if s.validity < minvalidity then Except.error "validity is below minimum validity"
  else if s.validity > maxvalidity then Except.error "validity is above maximum validity"
  else
    match checkExtensions s.extensions with
    | Except.error e => Except.error e
    | Except.ok () =>
      match checkUsersV2 lib s.users with
      | Except.error e => Except.error e
      | Except.ok users2 =>
        if (users2.any fun u => u.oidcSubject ≠ "") ∧ s.openIDC = none then
          Except.error "oidc authorization used but oidc provider not configured"
        else Except.ok { s with users := users2 }

/-- The insertion loop of `Settings.buildNameMap`, carried out over an
association list standing for the Go map `usersByName`. -/
def buildNameMapAux (m : List (String × UserPrincipals)) :
    List UserPrincipals → Except String (List (String × UserPrincipals))
  | [] => Except.ok m
  | u :: rest =>
    if (m.lookup u.name).isSome then
      Except.error ("duplicate entry for user " ++ u.name)
    else buildNameMapAux (m ++ [(u.name, u)]) rest

/-- `Settings.buildNameMap` from `util/settings.go`: builds the
name-to-user map, failing on any duplicate name. -/
def buildNameMap (users : List UserPrincipals) :
    Except String (List (String × UserPrincipals)) :=
  buildNameMapAux [] users

/-- `Settings.UserByName` from `util/settings.go`: look a user up in
the name map, returning an error when absent. -/
def Settings.UserByName (s : Settings) (name : String) : Except String UserPrincipals :=
  match s.usersByName.lookup name with
  | some u => Except.ok u
  | none => Except.error ("user " ++ name ++ " not found")

/-- `OpenIDC.Init` from `util/keyload.go`: reject an empty issuer or
client id, default the redirect URL and scopes, fetch the provider
metadata (an outbound network call, passed in as `fetch`), then build
the verifier and the OAuth2 client. -/
def OpenIDC.Init (fetch : String → Except String Provider) (app : OpenIDC) :
    Except String OpenIDC :=
  if app.issuer = "" then Except.error "issuer is missing"
  else if app.clientID = "" then Except.error "client_id is missing"
  else
    let redirectURL := if app.redirectURL = "" then "urn:ietf:wg:oauth:2.0:oob" else app.redirectURL
    let scopes := if app.scopes = [] then ["openid"] else app.scopes
    match fetch app.issuer with
    | Except.error e => Except.error e
    | Except.ok p =>
      Except.ok { app with
        redirectURL := redirectURL
        scopes := scopes
        provider := some p
        verifier := some ⟨app.clientID⟩
        oauth2 := some
          { clientID := app.clientID
            clientSecret := app.clientSecret
            redirectURL := redirectURL
            endpoint := p.endpoint
            scopes := scopes } }

/-- `util.SettingsLoad` from the sshtokenca variant of
`util/settings.go`, after the YAML decode (file access and YAML parsing
are the I/O boundary and are not modelled): require a non-empty user
list, validate, build the name map, and initialise the OIDC section
when present. -/
def settingsFinalize (lib : SshLib) (fetch : String → Except String Provider)
    (s : Settings) : Except String Settings :=
  if s.users = [] then Except.error "no valid users found in yaml file"
  else
    match settingsValidate lib s with
    | Except.error e => Except.error e
    | Except.ok s1 =>
      match buildNameMap s1.users with
      | Except.error e => Except.error e
      | Except.ok m =>
        match s1.openIDC with
        | none => Except.ok { s1 with usersByName := m }
        | some o =>
          match OpenIDC.Init fetch o with
          | Except.error e => Except.error e
          | Except.ok o2 => Except.ok { s1 with usersByName := m, openIDC := some o2 }

/-- The `PublicKeyCallback` registered in `Serve` (`server.go`): look
the claimed SSH username up in the settings, then accept exactly when
one of that user's keys marshals identically to the offered key. -/
def publicKeyCallback (s : Settings) (connUser : String) (offeredKey : PublicKey) :
    Except String Unit :=
  match s.UserByName connUser with
  | Except.error e => Except.error e
  | Except.ok u =>
    if u.publicKeys.any fun key => key.marshal == offeredKey.marshal then Except.ok ()
    else Except.error "unknown public key"

/-- The question list passed by the `KeyboardInteractiveCallback` in
`server.go` to the client challenge. -/
def kbdQuestions : List String := ["Enter your auth code: "]

/-- The echo flags passed alongside `kbdQuestions`: `true` requests the
client to echo the typed answer (RFC 4256 echo field). -/
def kbdEchos : List Bool := [true]

/-- The answer handling of the `KeyboardInteractiveCallback`
(`server.go`): any number of answers other than one is an error,
otherwise the single answer (the authorization code) is used. -/
def kbdAnswerCheck (answers : List String) : Except String String :=
  if answers.length ≠ 1 then Except.error "Unexpected number of answers"
  else Except.ok (answers.headD "")

/-- A channel request as received on the accepted session channel:
`ssh.Request` with its type string and WantReply flag. -/
structure ChanRequest where
  ty : String
  wantReply : Bool
deriving DecidableEq, Repr

/-- One event observed by the inner `for`/`select` loop of
`handleChannels` (`server.go`): a delivered request, a nil request
(the requests channel was closed by the peer or by closing the
channel), or the 10-second deadline firing. -/
inductive ChanEvent where
  | req (r : ChanRequest)
  | closed
  | timeout
deriving DecidableEq, Repr

/-- An observable action performed by the session handler on the
connection: accepting or rejecting the inbound channel, replying to a
channel request, writing a terminal line, sending the `exit-status`
request, closing the session channel, closing the SSH connection. -/
inductive SrvAction where
  | acceptChannel
  | rejectProhibited
  | reply (ok : Bool)
  | termWrite (line : String)
  | exitStatus (status : Nat)
  | closeChannel
  | closeConn
deriving DecidableEq, Repr

/-- The request-type test of `handleChannels` (`server.go`): the three
accepted channel request types. -/
def reqOK (ty : String) : Bool :=
  (ty == "auth-agent-req@openssh.com") || (ty == "pty-req") || (ty == "shell")

/-- `chanCloser` from `server.go`: send an `exit-status` request whose
status is 1 on error and 0 otherwise, then close the session
channel. -/
def chanCloser (isError : Bool) : List SrvAction :=
  [SrvAction.exitStatus (if isError then 1 else 0), SrvAction.closeChannel]

/-- The inner `for`/`select` loop of `handleChannels` (`server.go`),
run after the session channel was accepted, as a function from the
sequence of observed events to the actions performed.  A nil request or
the deadline ends the loop (the function returns); each delivered
request is replied to when WantReply is set, and a `shell` request
additionally writes the banner, the welcome line, the error text when
the result is an error, the result message and the goodbye line, then
runs `chanCloser`. -/
def serviceRequests (banner uname message : String) (result : Option String) :
    List ChanEvent → List SrvAction
  | [] => []
  | ChanEvent.closed :: _ => []
  | ChanEvent.timeout :: _ => []
  | ChanEvent.req r :: rest =>
    (if r.wantReply then [SrvAction.reply (reqOK r.ty)] else [])
    ++ (if r.ty == "shell" then
          [SrvAction.termWrite banner, SrvAction.termWrite ("welcome, " ++ uname)]
          ++ (match result with
              | some e => [SrvAction.termWrite e]
              | none => [])
          ++ [SrvAction.termWrite message, SrvAction.termWrite "goodbye\n"]
          ++ chanCloser result.isSome
        else [])
    ++ serviceRequests banner uname message result rest

/-- An inbound `ssh.NewChannel`, carrying its channel type. -/
structure NewChannel where
  chanType : String
deriving DecidableEq, Repr

/-- `handleChannels` from `server.go` as a function from the inbound
channel stream and the subsequent request events to the actions
performed.  The outer `select` takes at most the first pending channel;
an empty stream stands for the paths on which no channel is obtained
(the deadline fires first, or a nil channel is delivered) and only the
deferred connection close runs.  A first channel whose type is not
`session` is rejected with reason `Prohibited`.  Otherwise the channel
is accepted (`acceptOk` is false when `Accept` itself errors, in which
case the handler returns at once) and the request loop runs.  The
deferred `sshConn.Close()` is the final action on every path. -/
def handleChannels (banner uname message : String) (result : Option String)
    (acceptOk : Bool) (arrivals : List NewChannel) (events : List ChanEvent) :
    List SrvAction :=
  (match arrivals with
   | [] => []
   | c :: _ =>
     if c.chanType ≠ "session" then [SrvAction.rejectProhibited]
     else if acceptOk then
       SrvAction.acceptChannel :: serviceRequests banner uname message result events
     else [])
  ++ [SrvAction.closeConn]

/-- Count of `exit-status` requests among a list of actions. -/
def exitStatusCount (acts : List SrvAction) : Nat :=
  acts.countP fun a => match a with
    | SrvAction.exitStatus _ => true
    | _ => false

/-- Count of accepted channels among a list of actions. -/
def acceptCount (acts : List SrvAction) : Nat :=
  acts.countP fun a => a == SrvAction.acceptChannel

/-- The replies sent, in order, among a list of actions. -/
def repliesOf (acts : List SrvAction) : List Bool :=
  acts.filterMap fun a => match a with
    | SrvAction.reply b => some b
    | _ => none

/-- The number of `shell` requests delivered before the loop ends. -/
def shellCount : List ChanEvent → Nat
  | [] => 0
  | ChanEvent.closed :: _ => 0
  | ChanEvent.timeout :: _ => 0
  | ChanEvent.req r :: rest => (if r.ty == "shell" then 1 else 0) + shellCount rest

/-- The channel requests delivered before the loop ends. -/
def requestsTaken : List ChanEvent → List ChanRequest
  | [] => []
  | ChanEvent.closed :: _ => []
  | ChanEvent.timeout :: _ => []
  | ChanEvent.req r :: rest => r :: requestsTaken rest

/-- `util.UserPrincipals` from the sshagentca variant
(`src/unnamed/part_001`, identically the first variant embedded in
`util/settings.go`): here the fingerprint may stand alone, without an
authorized key. -/
structure UserPrincipalsV1 where
  name : String
  fingerprint : String
  authorizedKey : String
  oidcSubject : String
  principals : List String
deriving DecidableEq, Repr

/-- The per-user body of the users loop in the sshagentca
`Settings.validate` (`src/unnamed/part_001`): checks name and
principals; with an authorized key present, parses it, requires exactly
one key, checks a configured fingerprint against the computed one and
overwrites the fingerprint field with the computed value; without one,
requires a fingerprint of exactly 50 characters starting with
`SHA256:`. -/
def checkUserV1 (lib : SshLib) (u : UserPrincipalsV1) : Except String UserPrincipalsV1 :=
  if u.name = "" then Except.error "user provided with empty name"
  else if u.principals = [] then
    Except.error ("user " ++ u.name ++ " provided with no principals")
  else if u.authorizedKey ≠ "" then
    match lib.parseAuthorizedKeys u.authorizedKey with
    | Except.error e => Except.error e
    | Except.ok keys =>
      if keys.length ≠ 1 then
        Except.error ("user " ++ u.name ++ " unexpected number of keys in authorized_keys entry")
      else
        let fp := lib.fingerprintSHA256 (keys.headD ⟨[]⟩)
        if u.fingerprint ≠ "" ∧ u.fingerprint ≠ fp then
          Except.error ("user " ++ u.name ++ " mismatched fingerprint and authorized_key")
        else Except.ok { u with fingerprint := fp }
  else if u.fingerprint = "" then
    Except.error ("user " ++ u.name ++ " fingerprint and authorized_key missing")
  else if u.fingerprint.length ≠ 50 then
    Except.error ("user " ++ u.name ++ " fingerprint unexpected length")
  else if u.fingerprint.take 7 ≠ "SHA256:" then
    Except.error ("user " ++ u.name ++ " fingerprint does not start with SHA256:")
  else Except.ok u

/-- A concrete marshalled public key used in the concrete instances
below. -/
def keyA : PublicKey := ⟨[1, 2, 3]⟩

/-- A concrete `SshLib` instance: one well-known authorized_keys blob
parses to `keyA`, a second blob parses to zero keys, everything else is
a parse error; the fingerprint function is constant. -/
def lib0 : SshLib where
  parseAuthorizedKeys := fun s =>
    if s = "ssh-rsa AAAA bob" then Except.ok [keyA]
    else if s = "emptyblob" then Except.ok []
    else Except.error "parse error"
  fingerprintSHA256 := fun _ => "SHA256:0123456789012345678901234567890123456789012"

/-- A provider-metadata fetch that always fails; never reached when no
OIDC section is configured. -/
def noFetch : String → Except String Provider := fun _ => Except.error "no network"

/-- The user record `bob` as it appears in a configuration file, before
validation. -/
def bobUser : UserPrincipals :=
  { name := "bob", authorizedKey := "ssh-rsa AAAA bob", fingerprint := "",
    oidcSubject := "", principals := ["bob", "admins"] }

/-- The record `bob` after `Settings.validate` stored its parsed
key. -/
def bobChecked : UserPrincipals := { bobUser with publicKeys := [keyA] }

/-- A minimal raw configuration holding only the user `bob`. -/
def rawSettings : Settings :=
  { validity := minvalidity, organisation := "acme", banner := "welcome",
    extensions := [], users := [bobUser] }

/-- The settings value produced by loading `rawSettings`. -/
def loadedSettings : Settings :=
  { rawSettings with users := [bobChecked], usersByName := [("bob", bobChecked)] }

/-- The `rawSettings` family with a varying validity duration. -/
def mkValiditySettings (v : Int) : Settings := { rawSettings with validity := v }

/-- The `rawSettings` family with a varying extensions map. -/
def mkExtSettings (exts : List (String × String)) : Settings :=
  { rawSettings with extensions := exts }

/-- A 50-character fingerprint string starting with `SHA256:`; also the
constant value of `lib0.fingerprintSHA256`. -/
def fp50 : String := "SHA256:0123456789012345678901234567890123456789012"

/-- A sshagentca-variant user record configured with a fingerprint
only. -/
def userFpOnly : UserPrincipalsV1 :=
  { name := "carol", fingerprint := fp50, authorizedKey := "",
    oidcSubject := "", principals := ["carol"] }

/-- A sshagentca-variant user record configured with both an
authorized key and the matching fingerprint. -/
def userBothV1 : UserPrincipalsV1 :=
  { name := "bob", fingerprint := fp50, authorizedKey := "ssh-rsa AAAA bob",
    oidcSubject := "", principals := ["bob"] }

/-- A sshagentca-variant user record whose authorized_key blob parses
to zero keys. -/
def userEmptyBlob : UserPrincipalsV1 :=
  { name := "dave", fingerprint := "", authorizedKey := "emptyblob",
    oidcSubject := "", principals := ["dave"] }

/-- A concrete provider-metadata fetch returning endpoint `endpoint0`
for the example issuer. -/
def fetch0 : String → Except String Provider :=
  fun s => if s = "https://issuer.example" then Except.ok ⟨"endpoint0"⟩
           else Except.error "fetch failed"

/-- A concrete OIDC section with no redirect URL and no scopes
configured. -/
def app0 : OpenIDC :=
  { issuer := "https://issuer.example", clientID := "cid", clientSecret := "sec",
    redirectURL := "", scopes := [] }

/-- `app0` after a successful `OpenIDC.Init` against `fetch0`. -/
def app0After : OpenIDC :=
  { app0 with
    redirectURL := "urn:ietf:wg:oauth:2.0:oob"
    scopes := ["openid"]
    provider := some ⟨"endpoint0"⟩
    verifier := some ⟨"cid"⟩
    oauth2 := some
      { clientID := "cid", clientSecret := "sec",
        redirectURL := "urn:ietf:wg:oauth:2.0:oob",
        endpoint := "endpoint0", scopes := ["openid"] } }

/-- A user record used twice to exhibit a duplicate-name
configuration. -/
def dupUser : UserPrincipals :=
  { name := "bob", authorizedKey := "ssh-rsa AAAA bob", fingerprint := "",
    oidcSubject := "", principals := ["p"] }

/-- An event trace delivering a single `shell` request and then the
peer closing. -/
def shellEvents : List ChanEvent :=
  [ChanEvent.req ⟨"shell", true⟩, ChanEvent.closed]


/-- Helper: the request-servicing loop never accepts a channel. -/
theorem serviceRequests_no_accept (banner uname message : String) (result : Option String)
    (events : List ChanEvent) :
    acceptCount (serviceRequests banner uname message result events) = 0 := by
  induction events with
  | nil => rfl
  | cons ev rest ih =>
    cases ev with
    | closed => rfl
    | timeout => rfl
    | req r =>
      simp only [serviceRequests, acceptCount, List.countP_append] at ih ⊢
      cases hw : r.wantReply <;> cases hs : r.ty == "shell" <;> cases result <;>
        simp_all [chanCloser, List.countP_cons]

/-- Helper: one `exit-status` request is sent per delivered `shell`
request. -/
theorem serviceRequests_exitCount (banner uname message : String) (result : Option String)
    (events : List ChanEvent) :
    exitStatusCount (serviceRequests banner uname message result events) = shellCount events := by
  induction events with
  | nil => rfl
  | cons ev rest ih =>
    cases ev with
    | closed => rfl
    | timeout => rfl
    | req r =>
      simp only [serviceRequests, shellCount, exitStatusCount, List.countP_append] at ih ⊢
      cases hw : r.wantReply <;> cases hs : r.ty == "shell" <;> cases result <;>
        simp_all [chanCloser, List.countP_cons]

/-- Helper: every `exit-status` request sent by the request loop
carries 1 when the certificate result is an error and 0 otherwise. -/
theorem serviceRequests_exit_val (banner uname message : String) (result : Option String)
    (events : List ChanEvent) (n : Nat)
    (h : SrvAction.exitStatus n ∈ serviceRequests banner uname message result events) :
    n = (if result.isSome then 1 else 0) := by
  induction events with
  | nil => simp [serviceRequests] at h
  | cons ev rest ih =>
    cases ev with
    | closed => simp [serviceRequests] at h
    | timeout => simp [serviceRequests] at h
    | req r =>
      simp only [serviceRequests, List.mem_append] at h
      rcases h with (h | h) | h
      · cases hw : r.wantReply <;> simp [hw] at h
      · cases hs : r.ty == "shell" <;> cases hr : result <;>
          simp_all [chanCloser]
      · exact ih h

/-- Helper: unfolding of `handleChannels` when at least one channel is
pending. -/
theorem handleChannels_cons (banner uname message : String) (result : Option String)
    (acceptOk : Bool) (c : NewChannel) (crest : List NewChannel) (events : List ChanEvent) :
    handleChannels banner uname message result acceptOk (c :: crest) events
      = (if c.chanType ≠ "session" then [SrvAction.rejectProhibited]
         else if acceptOk then
           SrvAction.acceptChannel :: serviceRequests banner uname message result events
         else [])
        ++ [SrvAction.closeConn] := rfl

/-- C1 (counterexample): the public-key callback of `server.go` does
consult the claimed SSH username.  In the loaded example configuration
(user `bob` with key `keyA`), the same offered key `keyA` is accepted
for username `bob` and rejected for username `alice`, so the decision
is not a function of the offered key alone. -/
theorem C1_counterexample :
    settingsFinalize lib0 noFetch rawSettings = Except.ok loadedSettings ∧
    isOkB (publicKeyCallback loadedSettings "bob" keyA) = true ∧
    isOkB (publicKeyCallback loadedSettings "alice" keyA) = false :=
  ⟨rfl, rfl, rfl⟩

/-- C1 (amended): the public-key callback accepts exactly when the user
record registered under the claimed SSH username exists and one of that
record's public keys marshals identically to the offered key; the
decision therefore depends on both the username and the key, and no
fingerprint lookup is involved. -/
theorem C1_pubkey_decision (s : Settings) (connUser : String) (k : PublicKey) :
    isOkB (publicKeyCallback s connUser k) = true ↔
      ∃ u, s.usersByName.lookup connUser = some u ∧
        (u.publicKeys.any fun key => key.marshal == k.marshal) = true := by
  unfold publicKeyCallback Settings.UserByName
  cases h : s.usersByName.lookup connUser with
  | none => simp [isOkB]
  | some u =>
    cases hc : (u.publicKeys.any fun key => key.marshal == k.marshal) with
    | true =>
      simp [hc, isOkB]
      simpa using hc
    | false =>
      simp [hc, isOkB]
      simpa using hc

/-- C2 (counterexample): a connection whose session channel is accepted
but on which the 10-second deadline fires before any `shell` request
exits the handler without sending any `exit-status` request. -/
theorem C2_counterexample :
    SrvAction.acceptChannel
        ∈ handleChannels "w" "bob" "m" none true [⟨"session"⟩] [ChanEvent.timeout] ∧
    exitStatusCount
        (handleChannels "w" "bob" "m" none true [⟨"session"⟩] [ChanEvent.timeout]) = 0 := by
  decide

/-- C2 (amended): once the session channel is accepted, the handler
sends exactly one `exit-status` request per `shell` request delivered
before the deadline or disconnect — so exactly one when a single
`shell` arrives, and none on the deadline-timeout path — and every
`exit-status` sent carries 1 when certificate minting and injection
failed and 0 when they succeeded. -/
theorem C2_exit_status (banner uname message : String) (result : Option String)
    (rest : List NewChannel) (events : List ChanEvent) :
    exitStatusCount
        (handleChannels banner uname message result true (⟨"session"⟩ :: rest) events)
      = shellCount events ∧
    ∀ n, SrvAction.exitStatus n ∈
          handleChannels banner uname message result true (⟨"session"⟩ :: rest) events →
        n = (if result.isSome then 1 else 0) := by
  have hred : handleChannels banner uname message result true (⟨"session"⟩ :: rest) events
      = SrvAction.acceptChannel ::
          (serviceRequests banner uname message result events ++ [SrvAction.closeConn]) := rfl
  constructor
  · rw [hred]
    have h := serviceRequests_exitCount banner uname message result events
    simp only [exitStatusCount, List.countP_cons, List.countP_append] at h ⊢
    simp_all
  · intro n hn
    rw [hred] at hn
    rcases List.mem_cons.mp hn with h | h
    · cases h
    · rcases List.mem_append.mp h with h2 | h2
      · exact serviceRequests_exit_val banner uname message result events n h2
      · simp at h2

/-- C3 (confirmed): the per-connection handler services at most one
inbound channel: at most one channel is ever accepted; when the first
pending channel is not of type `session` the handler rejects it with
reason `Prohibited` and closes the connection, doing nothing else; and
the handler's behaviour never depends on any pending channel after the
first. -/
theorem C3_single_session_channel (banner uname message : String) (result : Option String)
    (acceptOk : Bool) (arrivals : List NewChannel) (events : List ChanEvent) :
    acceptCount (handleChannels banner uname message result acceptOk arrivals events) ≤ 1 ∧
    (∀ c rest, arrivals = c :: rest → c.chanType ≠ "session" →
        handleChannels banner uname message result acceptOk arrivals events
          = [SrvAction.rejectProhibited, SrvAction.closeConn]) ∧
    (∀ c rest rest',
        handleChannels banner uname message result acceptOk (c :: rest) events
          = handleChannels banner uname message result acceptOk (c :: rest') events) := by
  refine ⟨?_, ?_, ?_⟩
  · cases arrivals with
    | nil =>
      show acceptCount ([] ++ [SrvAction.closeConn]) ≤ 1
      decide
    | cons c crest =>
      rw [handleChannels_cons]
      split_ifs with hc ha
      · decide
      · have h := serviceRequests_no_accept banner uname message result events
        simp only [acceptCount, List.countP_cons, List.countP_append] at h ⊢
        simp_all
      · decide
  · intro c rest harr hc
    subst harr
    rw [handleChannels_cons, if_pos hc]
    rfl
  · intro c rest rest'
    rfl

/-- C3 (witness): a first pending channel of type `direct-tcpip` is
rejected with `Prohibited` and the connection is closed, and at most
one channel is accepted. -/
theorem C3_witness :
    handleChannels "w" "bob" "m" none true [⟨"direct-tcpip"⟩] []
      = [SrvAction.rejectProhibited, SrvAction.closeConn] ∧
    acceptCount (handleChannels "w" "bob" "m" none true [⟨"direct-tcpip"⟩] []) ≤ 1 := by
  have h := C3_single_session_channel "w" "bob" "m" none true [⟨"direct-tcpip"⟩] []
  exact ⟨h.2.1 ⟨"direct-tcpip"⟩ [] rfl (by decide), h.1⟩

/-- C4 (confirmed): on the accepted session channel the replies sent
are, in order, one reply per delivered request that set WantReply,
carrying `true` exactly when the request type is `pty-req`,
`auth-agent-req@openssh.com` or `shell` and `false` otherwise; requests
without WantReply receive no reply. -/
theorem C4_request_reply_policy (banner uname message : String) (result : Option String)
    (events : List ChanEvent) :
    repliesOf (serviceRequests banner uname message result events)
      = ((requestsTaken events).filter fun r => r.wantReply).map (fun r => reqOK r.ty) ∧
    (∀ ty : String, reqOK ty = true ↔
        ty = "pty-req" ∨ ty = "auth-agent-req@openssh.com" ∨ ty = "shell") := by
  constructor
  · induction events with
    | nil => rfl
    | cons ev rest ih =>
      cases ev with
      | closed => rfl
      | timeout => rfl
      | req r =>
        simp only [serviceRequests, requestsTaken, repliesOf, List.filterMap_append,
          List.filter_cons]
        cases hw : r.wantReply <;> cases hs : r.ty == "shell" <;> cases result <;>
          simp_all [chanCloser, repliesOf]
  · intro ty
    simp only [reqOK, Bool.or_eq_true, beq_iff_eq]
    tauto

/-- C7 (counterexample): the keyboard-interactive callback sends its
single prompt with the RFC 4256 echo flag set to `true`, i.e. the
client is asked to echo the typed authorization code, not to hide
it. -/
theorem C7_counterexample :
    kbdEchos = [true] ∧ kbdEchos ≠ [false] ∧ kbdQuestions.length = 1 := by
  decide

/-- C7 (amended): the keyboard-interactive callback prompts for exactly
one answer, with the echo flag set (input shown, not hidden), and its
answer handling succeeds exactly when the client returned exactly one
answer, returning an error for any other number of answers. -/
theorem C7_prompt_policy :
    kbdQuestions.length = 1 ∧ kbdEchos = [true] ∧
    (∀ answers : List String, isOkB (kbdAnswerCheck answers) = true ↔ answers.length = 1) := by
  refine ⟨rfl, rfl, fun answers => ?_⟩
  unfold kbdAnswerCheck
  by_cases h : answers.length = 1
  · simp [h, isOkB]
  · simp [h, isOkB]


/-- Helper: a successful `Settings.validate` implies the validity
duration is within bounds. -/
theorem settingsValidate_ok_bounds (lib : SshLib) (s s1 : Settings)
    (h : settingsValidate lib s = Except.ok s1) :
    minvalidity ≤ s.validity ∧ s.validity ≤ maxvalidity := by
  unfold settingsValidate at h
  by_cases h1 : s.validity < minvalidity
  · rw [if_pos h1] at h; exact Except.noConfusion h
  · rw [if_neg h1] at h
    by_cases h2 : s.validity > maxvalidity
    · rw [if_pos h2] at h; exact Except.noConfusion h
    · constructor <;> omega

/-- Helper: the validity check is the only part of the loader that
inspects the validity field; on the concrete single-user family
`mkValiditySettings` the loader succeeds exactly on the in-range
durations. -/
theorem finalize_mkValidity (v : Int) :
    settingsFinalize lib0 noFetch (mkValiditySettings v)
      = if (mkValiditySettings v).validity < minvalidity then
          Except.error "validity is below minimum validity"
        else if (mkValiditySettings v).validity > maxvalidity then
          Except.error "validity is above maximum validity"
        else Except.ok { loadedSettings with validity := v } := by
  unfold settingsFinalize settingsValidate
  rw [if_neg (show ¬ (mkValiditySettings v).users = [] by
    simp [mkValiditySettings, rawSettings])]
  split_ifs with h1 h2 <;> rfl

/-- C5 (confirmed): the configuration loader accepts a validity
duration exactly when it lies in [1 minute, 24 hours]: every
successfully loaded configuration has validity in that range, and on a
concrete single-user configuration family the loader succeeds exactly
on the in-range durations (so exactly 1 minute and exactly 24 hours are
accepted while 1 minute − 1 second and 24 hours + 1 second are
rejected with a configuration error). -/
theorem C5_validity_range :
    (∀ (lib : SshLib) (fetch : String → Except String Provider) (s : Settings),
        isOkB (settingsFinalize lib fetch s) = true →
        minvalidity ≤ s.validity ∧ s.validity ≤ maxvalidity) ∧
    (∀ v : Int,
        isOkB (settingsFinalize lib0 noFetch (mkValiditySettings v)) = true ↔
          minvalidity ≤ v ∧ v ≤ maxvalidity) := by
  have bounds : ∀ (lib : SshLib) (fetch : String → Except String Provider) (s : Settings),
      isOkB (settingsFinalize lib fetch s) = true →
      minvalidity ≤ s.validity ∧ s.validity ≤ maxvalidity := by
    intro lib fetch s h
    unfold settingsFinalize at h
    by_cases hu : s.users = []
    · rw [if_pos hu] at h; simp [isOkB] at h
    · rw [if_neg hu] at h
      cases hv : settingsValidate lib s with
      | error e => rw [hv] at h; simp [isOkB] at h
      | ok s1 => exact settingsValidate_ok_bounds lib s s1 hv
  refine ⟨bounds, fun v => ⟨fun h => ?_, fun h => ?_⟩⟩
  · exact bounds lib0 noFetch (mkValiditySettings v) h
  · rw [finalize_mkValidity v]
    have hv : (mkValiditySettings v).validity = v := rfl
    rw [hv] at *
    rw [if_neg (by omega), if_neg (by omega)]
    rfl

/-- C5 (witness): 1 minute and 24 hours are accepted; 1 minute minus
one second and 24 hours plus one second are rejected. -/
theorem C5_witness :
    isOkB (settingsFinalize lib0 noFetch (mkValiditySettings minvalidity)) = true ∧
    isOkB (settingsFinalize lib0 noFetch (mkValiditySettings maxvalidity)) = true ∧
    isOkB (settingsFinalize lib0 noFetch
      (mkValiditySettings (minvalidity - 1000000000))) = false ∧
    isOkB (settingsFinalize lib0 noFetch
      (mkValiditySettings (maxvalidity + 1000000000))) = false := by
  have h := C5_validity_range
  refine ⟨(h.2 minvalidity).mpr (by decide), (h.2 maxvalidity).mpr (by decide), ?_, ?_⟩
  · cases hb : isOkB (settingsFinalize lib0 noFetch
        (mkValiditySettings (minvalidity - 1000000000))) with
    | true => exact absurd ((h.2 (minvalidity - 1000000000)).mp hb) (by decide)
    | false => rfl
  · cases hb : isOkB (settingsFinalize lib0 noFetch
        (mkValiditySettings (maxvalidity + 1000000000))) with
    | true => exact absurd ((h.2 (maxvalidity + 1000000000)).mp hb) (by decide)
    | false => rfl

/-- C6 (confirmed): in the sshagentca validate loop, a record with a
fingerprint and no authorized key is accepted exactly when the
fingerprint is exactly 50 characters long and starts with `SHA256:`;
a record with both configured is accepted only when the fingerprint
equals the fingerprint computed from the parsed key; and an
authorized_key blob parsing to a number of keys other than one is
rejected. -/
theorem C6_fingerprint_rules :
    (∀ (lib : SshLib) (u : UserPrincipalsV1), u.name ≠ "" → u.principals ≠ [] →
        u.authorizedKey = "" → u.fingerprint ≠ "" →
        (isOkB (checkUserV1 lib u) = true ↔
          (u.fingerprint.length = 50 ∧ u.fingerprint.take 7 = "SHA256:"))) ∧
    (∀ (lib : SshLib) (u u2 : UserPrincipalsV1) (k : PublicKey),
        u.authorizedKey ≠ "" →
        lib.parseAuthorizedKeys u.authorizedKey = Except.ok [k] →
        u.fingerprint ≠ "" →
        checkUserV1 lib u = Except.ok u2 →
        u.fingerprint = lib.fingerprintSHA256 k) ∧
    (∀ (lib : SshLib) (u : UserPrincipalsV1) (keys : List PublicKey),
        u.authorizedKey ≠ "" →
        lib.parseAuthorizedKeys u.authorizedKey = Except.ok keys →
        keys.length ≠ 1 →
        isOkB (checkUserV1 lib u) = false) := by
  refine ⟨?_, ?_, ?_⟩
  · intro lib u hname hprinc hak hfp
    unfold checkUserV1
    rw [if_neg hname, if_neg hprinc, if_neg (by simp [hak]), if_neg (by simpa using hfp)]
    split_ifs with h1 h2 <;> simp_all [isOkB]
  · intro lib u u2 k hak hparse hfp hok
    unfold checkUserV1 at hok
    by_cases h1 : u.name = ""
    · rw [if_pos h1] at hok; exact Except.noConfusion hok
    rw [if_neg h1] at hok
    by_cases h2 : u.principals = []
    · rw [if_pos h2] at hok; exact Except.noConfusion hok
    rw [if_neg h2, if_pos hak] at hok
    simp only [hparse, List.headD_cons] at hok
    rw [if_neg (show ¬ ([k].length ≠ 1) by simp)] at hok
    by_cases h3 : u.fingerprint = lib.fingerprintSHA256 k
    · exact h3
    · rw [if_pos ⟨hfp, h3⟩] at hok
      exact Except.noConfusion hok
  · intro lib u keys hak hparse hlen
    unfold checkUserV1
    by_cases h1 : u.name = ""
    · rw [if_pos h1]; rfl
    rw [if_neg h1]
    by_cases h2 : u.principals = []
    · rw [if_pos h2]; rfl
    rw [if_neg h2, if_pos hak]
    simp only [hparse]
    rw [if_pos hlen]
    rfl

/-- C6 (witness): a fingerprint-only record with a 50-character
`SHA256:`-prefixed fingerprint is accepted; a record with both key and
matching fingerprint has fingerprint equal to the computed one; a blob
parsing to zero keys is rejected. -/
theorem C6_witness :
    isOkB (checkUserV1 lib0 userFpOnly) = true ∧
    userBothV1.fingerprint = lib0.fingerprintSHA256 keyA ∧
    isOkB (checkUserV1 lib0 userEmptyBlob) = false := by
  have h := C6_fingerprint_rules
  refine ⟨?_, ?_, ?_⟩
  · exact (h.1 lib0 userFpOnly (by decide) (by decide) rfl (by decide)).mpr (by decide)
  · exact h.2.1 lib0 userBothV1 userBothV1 keyA (by decide) rfl (by decide) rfl
  · exact h.2.2 lib0 userEmptyBlob [] (by decide) rfl (by decide)

/-- C9 (confirmed): `OpenIDC.Init` fails when the configured issuer or
client id is empty; on success with an empty redirect URL or empty
scopes list, the defaults `urn:ietf:wg:oauth:2.0:oob` and `["openid"]`
are applied, and the OAuth2 client is constructed from the client id,
client secret, the defaulted redirect URL, the provider endpoint, and
the defaulted scopes. -/
theorem C9_openidc_defaults :
    (∀ (fetch : String → Except String Provider) (app : OpenIDC),
        app.issuer = "" ∨ app.clientID = "" →
        isOkB (OpenIDC.Init fetch app) = false) ∧
    (∀ (fetch : String → Except String Provider) (app app2 : OpenIDC) (p : Provider),
        fetch app.issuer = Except.ok p →
        OpenIDC.Init fetch app = Except.ok app2 →
        app2.redirectURL
            = (if app.redirectURL = "" then "urn:ietf:wg:oauth:2.0:oob"
               else app.redirectURL) ∧
        app2.scopes = (if app.scopes = [] then ["openid"] else app.scopes) ∧
        app2.oauth2 = some
          { clientID := app.clientID
            clientSecret := app.clientSecret
            redirectURL := (if app.redirectURL = "" then "urn:ietf:wg:oauth:2.0:oob"
                            else app.redirectURL)
            endpoint := p.endpoint
            scopes := (if app.scopes = [] then ["openid"] else app.scopes) }) := by
  constructor
  · intro fetch app h
    unfold OpenIDC.Init
    by_cases h1 : app.issuer = ""
    · rw [if_pos h1]; rfl
    · rcases h with h | h
      · exact absurd h h1
      · rw [if_neg h1, if_pos h]; rfl
  · intro fetch app app2 p hf hok
    unfold OpenIDC.Init at hok
    by_cases h1 : app.issuer = ""
    · rw [if_pos h1] at hok; exact Except.noConfusion hok
    rw [if_neg h1] at hok
    by_cases h2 : app.clientID = ""
    · rw [if_pos h2] at hok; exact Except.noConfusion hok
    rw [if_neg h2] at hok
    rw [hf] at hok
    injection hok with h3
    subst h3
    exact ⟨rfl, rfl, rfl⟩

/-- C9 (witness): an empty issuer or client id is rejected, and on the
concrete section `app0` (no redirect URL, no scopes) the defaults are
applied in the constructed OAuth2 client. -/
theorem C9_witness :
    isOkB (OpenIDC.Init fetch0 { app0 with issuer := "" }) = false ∧
    isOkB (OpenIDC.Init fetch0 { app0 with clientID := "" }) = false ∧
    app0After.redirectURL = "urn:ietf:wg:oauth:2.0:oob" ∧
    app0After.scopes = ["openid"] ∧
    app0After.oauth2 = some
      { clientID := "cid", clientSecret := "sec",
        redirectURL := "urn:ietf:wg:oauth:2.0:oob",
        endpoint := "endpoint0", scopes := ["openid"] } := by
  have h := C9_openidc_defaults
  have h2 := h.2 fetch0 app0 app0After ⟨"endpoint0"⟩ rfl rfl
  exact ⟨h.1 fetch0 _ (Or.inl rfl), h.1 fetch0 _ (Or.inr rfl),
    by simpa using h2.1, by simpa using h2.2.1, by simpa using h2.2.2⟩

/-- Helper: a lookup in a string-keyed association list succeeds
exactly when the key occurs among the stored keys. -/
theorem lookup_isSome_iff {β : Type} (m : List (String × β)) (k : String) :
    ((m.lookup k).isSome = true) ↔ k ∈ m.map Prod.fst := by
  induction m with
  | nil => simp [List.lookup]
  | cons p rest ih =>
    obtain ⟨a, b⟩ := p
    by_cases h : k = a
    · subst h
      simp [List.lookup]
    · have hb : (k == a) = false := by simp [h]
      simp [List.lookup, hb, ih, h]

/-- Helper: any value returned by an association-list lookup is stored
in the list. -/
theorem lookup_val_mem {β : Type} (m : List (String × β)) (k : String) (val : β)
    (h : m.lookup k = some val) : val ∈ m.map Prod.snd := by
  induction m with
  | nil => simp [List.lookup] at h
  | cons p rest ih =>
    obtain ⟨a, b⟩ := p
    simp only [List.lookup] at h
    cases hb : k == a <;> rw [hb] at h
    · simp [ih h]
    · injection h with h2
      simp [h2]

/-- C8 (confirmed): the extensions check accepts exactly when every
configured key is one of the five allow-listed extension names and
every configured value is the empty string; and on the concrete
single-user configuration family the whole loader succeeds exactly
when the extensions check does. -/
theorem C8_extensions_allowlist :
    (∀ exts : List (String × String),
        isOkB (checkExtensions exts) = true ↔
          ∀ kv ∈ exts,
            kv.1 ∈ ["permit-agent-forwarding", "permit-port-forwarding", "permit-pty",
                     "permit-X11-forwarding", "permit-user-rc"] ∧ kv.2 = "") ∧
    (∀ exts : List (String × String),
        isOkB (settingsFinalize lib0 noFetch (mkExtSettings exts)) = true ↔
          isOkB (checkExtensions exts) = true) := by
  constructor
  · intro exts
    induction exts with
    | nil => simp [checkExtensions, isOkB]
    | cons kv rest ih =>
      obtain ⟨k, v⟩ := kv
      cases hl : permittedExtensions.lookup k with
      | none =>
        have hk : ¬ k ∈ ["permit-agent-forwarding", "permit-port-forwarding", "permit-pty",
            "permit-X11-forwarding", "permit-user-rc"] := by
          intro hmem
          have h2 := (lookup_isSome_iff permittedExtensions k).mpr
            (by simpa [permittedExtensions] using hmem)
          rw [hl] at h2
          simp at h2
        simp only [checkExtensions, hl]
        constructor
        · intro hfalse
          exact absurd hfalse (by simp [isOkB])
        · intro hall
          exact absurd (hall (k, v) (List.mem_cons_self _ _)).1 hk
      | some val =>
        have hval : val = "" := by
          have hm := lookup_val_mem permittedExtensions k val hl
          simpa [permittedExtensions] using hm
        subst hval
        have hk : k ∈ ["permit-agent-forwarding", "permit-port-forwarding", "permit-pty",
            "permit-X11-forwarding", "permit-user-rc"] := by
          have h2 := (lookup_isSome_iff permittedExtensions k).mp (by simp [hl])
          simpa [permittedExtensions] using h2
        simp only [checkExtensions, hl]
        by_cases hv : v = ""
        · subst hv
          rw [if_neg (by simp)]
          rw [ih]
          constructor
          · intro h2
            rw [List.forall_mem_cons]
            exact ⟨⟨hk, rfl⟩, h2⟩
          · intro h2
            rw [List.forall_mem_cons] at h2
            exact h2.2
        · rw [if_pos hv]
          constructor
          · intro hfalse
            exact absurd hfalse (by simp [isOkB])
          · intro hall
            exact absurd (hall (k, v) (List.mem_cons_self _ _)).2 hv
  · intro exts
    cases hce : checkExtensions exts with
    | error e =>
      have hfin : settingsFinalize lib0 noFetch (mkExtSettings exts) = Except.error e := by
        unfold settingsFinalize settingsValidate
        rw [if_neg (show ¬ (mkExtSettings exts).users = [] by
          simp [mkExtSettings, rawSettings])]
        rw [if_neg (by rw [show (mkExtSettings exts).validity = minvalidity from rfl]; decide)]
        rw [if_neg (by rw [show (mkExtSettings exts).validity = minvalidity from rfl]; decide)]
        simp only [mkExtSettings] at hce ⊢
        rw [hce]
      simp [hfin, hce, isOkB]
    | ok u =>
      cases u
      have hfin : settingsFinalize lib0 noFetch (mkExtSettings exts)
          = Except.ok { mkExtSettings exts with
              users := [bobChecked], usersByName := [("bob", bobChecked)] } := by
        unfold settingsFinalize settingsValidate
        rw [if_neg (show ¬ (mkExtSettings exts).users = [] by
          simp [mkExtSettings, rawSettings])]
        rw [if_neg (by rw [show (mkExtSettings exts).validity = minvalidity from rfl]; decide)]
        rw [if_neg (by rw [show (mkExtSettings exts).validity = minvalidity from rfl]; decide)]
        simp only [mkExtSettings] at hce ⊢
        rw [hce]
        rfl
      simp [hfin, hce, isOkB]

/-- C8 (witness): an allow-listed key with empty value is accepted by
the loader; a non-empty value is rejected; an unknown key is
rejected. -/
theorem C8_witness :
    isOkB (settingsFinalize lib0 noFetch
      (mkExtSettings [("permit-agent-forwarding", "")])) = true ∧
    isOkB (checkExtensions [("permit-agent-forwarding", "x")]) = false ∧
    isOkB (checkExtensions [("permit-foo", "")]) = false := by
  have h := C8_extensions_allowlist
  refine ⟨(h.2 _).mpr ((h.1 _).mpr (by decide)), ?_, ?_⟩
  · cases hb : isOkB (checkExtensions [("permit-agent-forwarding", "x")]) with
    | true =>
      exact absurd (((h.1 _).mp hb) ("permit-agent-forwarding", "x") (by decide)).2
        (by decide)
    | false => rfl
  · cases hb : isOkB (checkExtensions [("permit-foo", "")]) with
    | true =>
      exact absurd (((h.1 _).mp hb) ("permit-foo", "") (by decide)).1 (by decide)
    | false => rfl

/-- Helper: the per-user check preserves the user's name. -/
theorem checkUserV2_name (lib : SshLib) (u u2 : UserPrincipals)
    (h : checkUserV2 lib u = Except.ok u2) : u2.name = u.name := by
  unfold checkUserV2 at h
  by_cases h1 : u.name = ""
  · rw [if_pos h1] at h; exact Except.noConfusion h
  rw [if_neg h1] at h
  by_cases h2 : u.principals = []
  · rw [if_pos h2] at h; exact Except.noConfusion h
  rw [if_neg h2] at h
  by_cases h3 : u.authorizedKey = "" ∧ u.oidcSubject = ""
  · rw [if_pos h3] at h; exact Except.noConfusion h
  rw [if_neg h3] at h
  by_cases h4 : u.authorizedKey ≠ ""
  · rw [if_pos h4] at h
    cases hp : lib.parseAuthorizedKeys u.authorizedKey with
    | error e => simp only [hp] at h; exact Except.noConfusion h
    | ok keys =>
      simp only [hp] at h
      by_cases h5 : keys.length ≠ 1
      · rw [if_pos h5] at h; exact Except.noConfusion h
      rw [if_neg h5] at h
      by_cases h6 : u.fingerprint ≠ "" ∧ u.fingerprint ≠ lib.fingerprintSHA256 (keys.headD ⟨[]⟩)
      · rw [if_pos h6] at h; exact Except.noConfusion h
      · rw [if_neg h6] at h
        injection h with h7
        subst h7
        rfl
  · rw [if_neg h4] at h
    by_cases h5 : u.fingerprint ≠ ""
    · rw [if_pos h5] at h; exact Except.noConfusion h
    · rw [if_neg h5] at h
      injection h with h7
      subst h7
      rfl

/-- Helper: the users loop preserves the list of user names. -/
theorem checkUsersV2_names (lib : SshLib) :
    ∀ (users users2 : List UserPrincipals),
      checkUsersV2 lib users = Except.ok users2 →
      users2.map (fun u => u.name) = users.map (fun u => u.name) := by
  intro users
  induction users with
  | nil =>
    intro users2 h
    injection h with h2
    rw [← h2]
  | cons u rest ih =>
    intro users2 h
    unfold checkUsersV2 at h
    cases hu : checkUserV2 lib u with
    | error e => rw [hu] at h; exact Except.noConfusion h
    | ok u2 =>
      rw [hu] at h
      cases hr : checkUsersV2 lib rest with
      | error e =>
        simp only [hr] at h
        exact Except.noConfusion h
      | ok rest2 =>
        simp only [hr] at h
        injection h with h2
        rw [← h2]
        simp only [List.map_cons]
        rw [checkUserV2_name lib u u2 hu, ih rest2 hr]

/-- Helper: a successful validate leaves the user names and the
name map unchanged. -/
theorem settingsValidate_ok_users (lib : SshLib) (s s1 : Settings)
    (h : settingsValidate lib s = Except.ok s1) :
    s1.users.map (fun u => u.name) = s.users.map (fun u => u.name) ∧
    s1.usersByName = s.usersByName ∧ s1.openIDC = s.openIDC := by
  unfold settingsValidate at h
  by_cases h1 : s.validity < minvalidity
  · rw [if_pos h1] at h; exact Except.noConfusion h
  rw [if_neg h1] at h
  by_cases h2 : s.validity > maxvalidity
  · rw [if_pos h2] at h; exact Except.noConfusion h
  rw [if_neg h2] at h
  cases hce : checkExtensions s.extensions with
  | error e => rw [hce] at h; exact Except.noConfusion h
  | ok uu =>
    cases uu
    rw [hce] at h
    cases hcu : checkUsersV2 lib s.users with
    | error e => simp only [hcu] at h; exact Except.noConfusion h
    | ok users2 =>
      simp only [hcu] at h
      by_cases h3 : (users2.any fun u => u.oidcSubject ≠ "") = true ∧ s.openIDC = none
      · rw [if_pos h3] at h; exact Except.noConfusion h
      · rw [if_neg h3] at h
        injection h with h4
        subst h4
        exact ⟨checkUsersV2_names lib s.users users2 hcu, rfl, rfl⟩

/-- Helper: a successful load built the name map from the final user
list, and kept the user names of the raw configuration. -/
theorem settingsFinalize_ok_facts (lib : SshLib)
    (fetch : String → Except String Provider) (s s2 : Settings)
    (h : settingsFinalize lib fetch s = Except.ok s2) :
    buildNameMap s2.users = Except.ok s2.usersByName ∧
    s2.users.map (fun u => u.name) = s.users.map (fun u => u.name) := by
  unfold settingsFinalize at h
  by_cases h0 : s.users = []
  · rw [if_pos h0] at h; exact Except.noConfusion h
  rw [if_neg h0] at h
  cases hv : settingsValidate lib s with
  | error e => rw [hv] at h; exact Except.noConfusion h
  | ok s1 =>
    rw [hv] at h
    have hval := settingsValidate_ok_users lib s s1 hv
    cases hb : buildNameMap s1.users with
    | error e => simp only [hb] at h; exact Except.noConfusion h
    | ok m =>
      simp only [hb] at h
      cases ho : s1.openIDC with
      | none =>
        rw [ho] at h
        injection h with h4
        subst h4
        exact ⟨hb, hval.1⟩
      | some o =>
        rw [ho] at h
        cases hi : OpenIDC.Init fetch o with
        | error e => simp only [hi] at h; exact Except.noConfusion h
        | ok o2 =>
          simp only [hi] at h
          injection h with h4
          subst h4
          exact ⟨hb, hval.1⟩

/-- Helper: a successful name-map build appends one entry per user to
the accumulator, in order. -/
theorem buildNameMapAux_ok_eq (users : List UserPrincipals) :
    ∀ m m2, buildNameMapAux m users = Except.ok m2 →
      m2 = m ++ users.map (fun u => (u.name, u)) := by
  induction users with
  | nil =>
    intro m m2 h
    injection h with h2
    simp [← h2]
  | cons u rest ih =>
    intro m m2 h
    unfold buildNameMapAux at h
    by_cases hl : (m.lookup u.name).isSome
    · rw [if_pos hl] at h; exact Except.noConfusion h
    · rw [if_neg hl] at h
      have h2 := ih _ _ h
      simp [h2]

/-- Helper: the name-map build succeeds exactly when the user names are
distinct among themselves and absent from the accumulator. -/
theorem buildNameMapAux_isOk_iff (users : List UserPrincipals) :
    ∀ m : List (String × UserPrincipals),
      isOkB (buildNameMapAux m users) = true ↔
        ((users.map fun u => u.name).Nodup ∧
          ∀ u ∈ users, ¬ u.name ∈ m.map Prod.fst) := by
  induction users with
  | nil =>
    intro m
    simp [buildNameMapAux, isOkB]
  | cons u rest ih =>
    intro m
    unfold buildNameMapAux
    by_cases hl : (m.lookup u.name).isSome
    · rw [if_pos hl]
      constructor
      · intro hfalse
        exact absurd hfalse (by simp [isOkB])
      · rintro ⟨_, hall⟩
        exact absurd ((lookup_isSome_iff m u.name).mp hl)
          (hall u (List.mem_cons_self u rest))
    · rw [if_neg hl]
      rw [ih (m ++ [(u.name, u)])]
      have hnotm : ¬ u.name ∈ m.map Prod.fst := fun hmem =>
        hl ((lookup_isSome_iff m u.name).mpr hmem)
      constructor
      · rintro ⟨hnd, hall⟩
        refine ⟨?_, ?_⟩
        · rw [List.map_cons, List.nodup_cons]
          refine ⟨?_, hnd⟩
          intro hmem
          obtain ⟨v, hv, hvn⟩ := List.mem_map.mp hmem
          have := hall v hv
          rw [List.map_append, List.mem_append] at this
          exact this (Or.inr (by simp [hvn]))
        · intro v hv
          rcases List.mem_cons.mp hv with rfl | hv2
          · exact hnotm
          · have := hall v hv2
            rw [List.map_append, List.mem_append] at this
            intro hmem
            exact this (Or.inl hmem)
      · rintro ⟨hnd, hall⟩
        rw [List.map_cons, List.nodup_cons] at hnd
        refine ⟨hnd.2, ?_⟩
        intro v hv
        rw [List.map_append, List.mem_append]
        rintro (hmem | hmem)
        · exact hall v (List.mem_cons_of_mem u hv) hmem
        · simp only [List.map_cons, List.map_nil, List.mem_singleton] at hmem
          exact hnd.1 (hmem ▸ List.mem_map.mpr ⟨v, hv, rfl⟩)

/-- Helper: `buildNameMap` succeeds exactly when all user names are
pairwise distinct. -/
theorem buildNameMap_ok_iff (users : List UserPrincipals) :
    isOkB (buildNameMap users) = true ↔
      users.Pairwise (fun a b => a.name ≠ b.name) := by
  unfold buildNameMap
  rw [buildNameMapAux_isOk_iff users []]
  simp [List.Nodup, List.pairwise_map]

/-- Helper: on a map built from users with distinct names, looking a
configured user's name up returns exactly that user. -/
theorem lookup_map_name (users : List UserPrincipals)
    (hnd : (users.map fun u => u.name).Nodup) :
    ∀ u ∈ users, (users.map fun v => (v.name, v)).lookup u.name = some u := by
  induction users with
  | nil => simp
  | cons v rest ih =>
    intro u hu
    rw [List.map_cons, List.nodup_cons] at hnd
    rcases List.mem_cons.mp hu with rfl | hu2
    · simp [List.lookup]
    · have hne : (u.name == v.name) = false := by
        simp only [beq_eq_false_iff_ne, ne_eq]
        intro heq
        exact hnd.1 (heq ▸ List.mem_map.mpr ⟨u, hu2, rfl⟩)
      simp only [List.map_cons, List.lookup, hne]
      exact ih hnd.2 u hu2

/-- C10 (confirmed): the name-map build fails exactly on a duplicate
user name, so a configuration in which two user records share a name is
rejected by the loader; and in every successfully loaded settings value
the user names are pairwise distinct and `UserByName` resolves each
configured user's name to exactly that record. -/
theorem C10_unique_user_names :
    (∀ users : List UserPrincipals,
        isOkB (buildNameMap users) = true ↔
          users.Pairwise (fun a b => a.name ≠ b.name)) ∧
    (∀ (lib : SshLib) (fetch : String → Except String Provider) (s : Settings),
        ¬ s.users.Pairwise (fun a b => a.name ≠ b.name) →
        isOkB (settingsFinalize lib fetch s) = false) ∧
    (∀ (lib : SshLib) (fetch : String → Except String Provider) (s s2 : Settings),
        settingsFinalize lib fetch s = Except.ok s2 →
        s2.users.Pairwise (fun a b => a.name ≠ b.name) ∧
        ∀ u ∈ s2.users, s2.UserByName u.name = Except.ok u) := by
  refine ⟨buildNameMap_ok_iff, ?_, ?_⟩
  · intro lib fetch s hdup
    cases hf : settingsFinalize lib fetch s with
    | error e => rfl
    | ok s2 =>
      exfalso
      have hfacts := settingsFinalize_ok_facts lib fetch s s2 hf
      have hp : s2.users.Pairwise (fun a b => a.name ≠ b.name) :=
        (buildNameMap_ok_iff s2.users).mp (by rw [hfacts.1]; rfl)
      apply hdup
      have hnd : (s.users.map fun u => u.name).Nodup := by
        rw [← hfacts.2]
        simpa [List.Nodup, List.pairwise_map] using hp
      simpa [List.Nodup, List.pairwise_map] using hnd
  · intro lib fetch s s2 hf
    have hfacts := settingsFinalize_ok_facts lib fetch s s2 hf
    have hok : isOkB (buildNameMap s2.users) = true := by rw [hfacts.1]; rfl
    have hp := (buildNameMap_ok_iff s2.users).mp hok
    refine ⟨hp, ?_⟩
    intro u hu
    have hnd : (s2.users.map fun u => u.name).Nodup := by
      simpa [List.Nodup, List.pairwise_map] using hp
    have hmap := buildNameMapAux_ok_eq s2.users [] s2.usersByName hfacts.1
    unfold Settings.UserByName
    rw [hmap]
    simp only [List.nil_append]
    rw [lookup_map_name s2.users hnd u hu]

/-- C10 (witness): a configuration listing the same user record twice
fails the name-map build, while the loaded example settings have
distinct names and `UserByName` resolves `bob` to the stored record. -/
theorem C10_witness :
    isOkB (buildNameMap [dupUser, dupUser]) = false ∧
    loadedSettings.users.Pairwise (fun a b => a.name ≠ b.name) ∧
    loadedSettings.UserByName "bob" = Except.ok bobChecked := by
  have h := C10_unique_user_names
  refine ⟨?_, ?_, ?_⟩
  · cases hb : isOkB (buildNameMap [dupUser, dupUser]) with
    | true => exact absurd ((h.1 _).mp hb) (by decide)
    | false => rfl
  · exact (h.2.2 lib0 noFetch rawSettings loadedSettings rfl).1
  · exact (h.2.2 lib0 noFetch rawSettings loadedSettings rfl).2 bobChecked (by decide)

/-- C2 (witness): on a trace delivering one `shell` request, exactly
one `exit-status` is sent and it carries 1, matching the failed
result. -/
theorem C2_witness :
    exitStatusCount (handleChannels "w" "bob" "m" (some "boom") true
        [⟨"session"⟩] shellEvents) = shellCount shellEvents ∧
    SrvAction.exitStatus 1 ∈ handleChannels "w" "bob" "m" (some "boom") true
        [⟨"session"⟩] shellEvents ∧
    (1 : Nat) = (if (some "boom").isSome then 1 else 0) := by
  have h := C2_exit_status "w" "bob" "m" (some "boom") [] shellEvents
  exact ⟨h.1, by decide, h.2 1 (by decide)⟩
